import Mathlib

/-!
Shallow embedding of `project3-collaboration-competition/maddpg.py`:
the `ReplayBuffer` class and the `MADDPG` coordinator class.

Modelling conventions:
* Python's module-level `random` state (the hidden global generator that
  `random.seed` reseeds and `random.sample` consumes) is modelled as an
  explicit `PyRandom` value threaded through every operation that touches it.
  The concrete generator is a deterministic linear-congruential step standing
  in for the Mersenne Twister; the development depends only on determinism
  and on the fact that the state is shared, never on the distribution.
* Transitions are polymorphic in the state, action and reward payload types
  `S`, `A`, `R`; the Python code stores numpy arrays there, which the claims
  never inspect beyond identity and position.
* Methods that can raise (`random.sample` raising `ValueError`, indexing
  raising `IndexError`) return `Option`; `none` is the raised exception.
-/

set_option autoImplicit false

universe u v w

variable {S : Type u} {A : Type v} {R : Type w}

/-- Model of the module-global state of Python's `random`.  `random.seed(s)`
overwrites this state; `random.sample` reads and advances it. -/
structure PyRandom where
  state : Nat
  deriving Repr, DecidableEq

namespace PyRandom

/-- `random.seed(s)`: the global state after seeding is a function of the
seed alone; whatever state was there before is discarded. -/
def seedState (seed : Nat) : PyRandom :=
  ⟨seed % 2 ^ 31⟩

/-- One draw from the generator: returns the drawn number and the advanced
state (a linear-congruential step, standing in for the real generator). -/
def next (g : PyRandom) : Nat × PyRandom :=
  let s := (g.state * 1103515245 + 12345) % 2 ^ 31
  (s, ⟨s⟩)

end PyRandom

/-- The `namedtuple("Experience", ["state", "action", "reward", "next_state",
"done"])` stored in the replay buffer: one agent's transition. -/
structure Experience (S : Type u) (A : Type v) (R : Type w) where
  state : S
  action : A
  reward : R
  next_state : S
  done : Bool
  deriving Repr, DecidableEq

/-- The five-column result of `ReplayBuffer.sample`: each transition field
grouped by column (`vstack`-style); `dones` coerced to a 0/1 numeric
encoding as by `astype(np.uint8)`. -/
structure Batch (S : Type u) (A : Type v) (R : Type w) where
  states : List S
  actions : List A
  rewards : List R
  next_states : List S
  dones : List Nat
  deriving Repr, DecidableEq

/-- `deque(maxlen := maxlen)` append: when full, the oldest (front) element
is discarded before the new element lands at the back. -/
def dequeAppend {α : Type u} (maxlen : Nat) (l : List α) (x : α) : List α :=
  if maxlen < (l ++ [x]).length then (l ++ [x]).drop ((l ++ [x]).length - maxlen)
  else l ++ [x]

/-- Draw `k` pairwise-distinct elements from `remaining`, driven by the
global generator: each round consumes one number from the generator, picks
the element at that position (mod the remaining count) and removes it.
This is the without-replacement selection of `random.sample`. -/
def drawDistinct (g : PyRandom) : Nat → List Nat → List Nat × PyRandom
  | 0, _ => ([], g)
  | k + 1, remaining =>
    if remaining.isEmpty then ([], g)
    else
      let p := g.next
      let i := p.1 % remaining.length
      let rest := drawDistinct p.2 k (remaining.eraseIdx i)
      (remaining.getD i 0 :: rest.1, rest.2)

/-- The `ReplayBuffer` class: a fixed-capacity deque of experiences plus the
construction parameters.  `buffer_size` is the deque's `maxlen`. -/
structure ReplayBuffer (S : Type u) (A : Type v) (R : Type w) where
  action_size : Nat
  buffer_size : Nat
  batch_size : Nat
  replay_memory : List (Experience S A R)
  deriving Repr, DecidableEq

namespace ReplayBuffer

/-- `ReplayBuffer.__init__`: records the parameters, starts with an empty
deque of capacity `buffer_size`, and calls `random.seed(seed)` — reseeding
the module-global generator, not a private one.  The returned `PyRandom` is
the global state after construction. -/
def init (action_size buffer_size batch_size seed : Nat) (g : PyRandom) :
    ReplayBuffer S A R × PyRandom :=
  let _ := g
  (⟨action_size, buffer_size, batch_size, []⟩, PyRandom.seedState seed)

/-- `__len__`: the number of stored experiences. -/
def length (b : ReplayBuffer S A R) : Nat :=
  b.replay_memory.length

/-- `add`: build the experience tuple and append it to the deque. -/
def add (b : ReplayBuffer S A R) (e : Experience S A R) : ReplayBuffer S A R :=
  { b with replay_memory := dequeAppend b.buffer_size b.replay_memory e }

/-- A sequence of `add` calls, oldest first. -/
def addAll (b : ReplayBuffer S A R) (es : List (Experience S A R)) :
    ReplayBuffer S A R :=
  es.foldl add b

/-- The positions `random.sample` draws, together with the advanced global
generator state. -/
def sampleIdx (b : ReplayBuffer S A R) (g : PyRandom) : List Nat × PyRandom :=
  drawDistinct g b.batch_size (List.range b.replay_memory.length)

/-- The `experiences` local of `sample`: `random.sample(self.replay_memory,
k=self.batch_size)` — `none` is the `ValueError` raised when fewer than
`batch_size` experiences are stored.  The buffer itself is returned
unchanged: `random.sample` only reads the deque. -/
def sampleExperiences (b : ReplayBuffer S A R) (g : PyRandom) :
    Option (List (Experience S A R) × ReplayBuffer S A R × PyRandom) :=
  if b.batch_size ≤ b.replay_memory.length then
    some ((b.sampleIdx g).1.filterMap (fun i => b.replay_memory[i]?), b,
      (b.sampleIdx g).2)
  else
    none

/-- `sample`: draw the batch and stack each field into its own column, the
`done` flags coerced to 0/1. -/
def sample (b : ReplayBuffer S A R) (g : PyRandom) :
    Option (Batch S A R × ReplayBuffer S A R × PyRandom) :=
  match b.sampleExperiences g with
  | none => none
  | some (experiences, b', g') =>
    some (⟨experiences.map (·.state),
           experiences.map (·.action),
           experiences.map (·.reward),
           experiences.map (·.next_state),
           experiences.map (fun e => if e.done then 1 else 0)⟩, b', g')

/-- A run of `n` successive `sample()` calls: each records its result
(`none` is a raised `ValueError`, which leaves the state unchanged) and
threads the buffer and the global generator. -/
def sampleRun : Nat → ReplayBuffer S A R → PyRandom → List (Option (Batch S A R))
  | 0, _, _ => []
  | n + 1, b, g =>
    match b.sample g with
    | none => none :: sampleRun n b g
    | some (batch, b', g') => some batch :: sampleRun n b' g'

end ReplayBuffer

/-- Modelled from the spec: the opaque `Agent` collaborator (`ddpg.py`, not
part of the coordination core).  The spec exposes only the capability set
`act(state, add_noise) -> action`, `reset()`, `learn(batch, gamma)`; only
`act`'s input/output behaviour is observable to the coordinator, so the
model carries it as a function, and `learn`/`reset` calls are recorded as
events by the coordinator. -/
structure Agent (S : Type u) (A : Type v) (R : Type w) where
  actFn : S → Bool → A

/-- Observable calls the coordinator makes during a `step`:
`sampleCall b` is one `self.memory.sample()` returning batch `b`,
`learnCall b` is one invocation of `MADDPG.learn` with batch `b`, and
`agentLearn i b gamma` is `self.agents[i].learn(b, gamma)`. -/
inductive Event (S : Type u) (A : Type v) (R : Type w) where
  | sampleCall : Batch S A R → Event S A R
  | learnCall : Batch S A R → Event S A R
  | agentLearn : Nat → Batch S A R → ℚ → Event S A R
  deriving Repr, DecidableEq

/-- `true` exactly on `learnCall` events. -/
def Event.isLearnCall : Event S A R → Bool
  | .learnCall _ => true
  | _ => false

/-- `true` exactly on `sampleCall` events. -/
def Event.isSampleCall : Event S A R → Bool
  | .sampleCall _ => true
  | _ => false

/-- `true` exactly on `agentLearn` events. -/
def Event.isAgentLearn : Event S A R → Bool
  | .agentLearn _ _ _ => true
  | _ => false

/-- The `MADDPG` coordinator: the fields `__init__` stores.  The discount
factor is carried as a rational (the claims never compute with it). -/
structure MADDPG (S : Type u) (A : Type v) (R : Type w) where
  num_agents : Nat
  batch_size : Nat
  gamma : ℚ
  minsamples_before_train : Nat
  agents : List (Agent S A R)
  memory : ReplayBuffer S A R

namespace MADDPG

/-- `MADDPG.__init__`: creates `num_agents` agents, each constructed from
the same `(state_size, action_size, seed)` triple (`mkAgent` stands for the
opaque `Agent` constructor), then the shared replay buffer — whose
construction reseeds the global generator. -/
def init (num_agents state_size action_size seed : Nat)
    (buffer_size batch_size : Nat) (gamma : ℚ) (minsamples_before_train : Nat)
    (mkAgent : Nat → Nat → Nat → Agent S A R) (g : PyRandom) :
    MADDPG S A R × PyRandom :=
  let agents := (List.range num_agents).map (fun _ => mkAgent state_size action_size seed)
  let p := ReplayBuffer.init (S := S) (A := A) (R := R) action_size buffer_size batch_size seed g
  (⟨num_agents, batch_size, gamma, minsamples_before_train, agents, p.1⟩, p.2)

/-- `act`: `for state, agent in zip(states, self.agents): actions.append(
agent.act(state, add_noise))` — the zip silently truncates to the shorter
of the two lists. -/
def act (m : MADDPG S A R) (states : List S) (add_noise : Bool) : List A :=
  (states.zip m.agents).map (fun p => p.2.actFn p.1 add_noise)

/-- `learn`: hand the one batch to every agent's `learn`, in agent-list
order.  The returned list records the `agent.learn` calls made. -/
def learn (m : MADDPG S A R) (experiences : Batch S A R) (gamma : ℚ) :
    List (Event S A R) :=
  (List.range m.agents.length).map (fun i => .agentLearn i experiences gamma)

/-- `self.experience(states[i], actions[i], rewards[i], next_states[i],
dones[i])`: the transition built from index `i` of the five per-agent
sequences; `none` is the `IndexError` when a sequence is too short. -/
def mkExperience? (states : List S) (actions : List A) (rewards : List R)
    (next_states : List S) (dones : List Bool) (i : Nat) :
    Option (Experience S A R) :=
  match states[i]?, actions[i]?, rewards[i]?, next_states[i]?, dones[i]? with
  | some s, some a, some r, some n, some d => some ⟨s, a, r, n, d⟩
  | _, _, _, _, _ => none

/-- The transitions the add-loop of `step` stores, for `i` ascending from
`start`; `none` if any index access fails.  (The Python loop adds as it
goes, so on an `IndexError` a prefix is already stored; the claims only
concern the non-failing case, which agrees with this atomic reading.) -/
def collectT (states : List S) (actions : List A) (rewards : List R)
    (next_states : List S) (dones : List Bool) (start : Nat) :
    Nat → Option (List (Experience S A R))
  | 0 => some []
  | k + 1 =>
    match mkExperience? states actions rewards next_states dones start,
        collectT states actions rewards next_states dones (start + 1) k with
    | some e, some es => some (e :: es)
    | _, _ => none

/-- The `num_agents` transitions stored by one `step` call. -/
def stepTransitions (m : MADDPG S A R) (states : List S) (actions : List A)
    (rewards : List R) (next_states : List S) (dones : List Bool) :
    Option (List (Experience S A R)) :=
  collectT states actions rewards next_states dones 0 m.num_agents

/-- The training loop of `step`: `n` rounds of `experience =
self.memory.sample(); self.learn(experience, gamma=self.gamma)`, threading
the buffer and the global generator; `none` propagates a `ValueError` from
`sample`.  Events are emitted in call order. -/
def trainIters (m : MADDPG S A R) :
    Nat → ReplayBuffer S A R → PyRandom →
    Option (ReplayBuffer S A R × PyRandom × List (Event S A R))
  | 0, b, g => some (b, g, [])
  | n + 1, b, g =>
    match b.sample g with
    | none => none
    | some (batch, b1, g1) =>
      match trainIters m n b1 g1 with
      | none => none
      | some (b2, g2, evs) =>
        some (b2, g2, .sampleCall batch :: .learnCall batch ::
          (m.learn batch m.gamma ++ evs))

/-- `step`: store one transition per agent into the shared buffer, then —
only when the buffer holds strictly more than `minsamples_before_train`
samples — run `num_agents` training iterations.  Returns the updated
coordinator, the global generator and the recorded events; `none` is a
raised exception. -/
def step (m : MADDPG S A R) (states : List S) (actions : List A)
    (rewards : List R) (next_states : List S) (dones : List Bool)
    (g : PyRandom) :
    Option (MADDPG S A R × PyRandom × List (Event S A R)) :=
  match m.stepTransitions states actions rewards next_states dones with
  | none => none
  | some ts =>
    let b' := m.memory.addAll ts
    if m.minsamples_before_train < b'.length then
      match m.trainIters m.num_agents b' g with
      | none => none
      | some (b'', g', evs) => some ({ m with memory := b'' }, g', evs)
    else
      some ({ m with memory := b' }, g, [])

/-- The event trace of `n` training iterations whose successive sampled
batches are `batches`: per iteration one `sampleCall`, one `learnCall`, then
the per-agent `agentLearn` calls, all with that iteration's batch. -/
def trainEvents (m : MADDPG S A R) (batches : List (Batch S A R)) :
    List (Event S A R) :=
  batches.flatMap (fun batch =>
    .sampleCall batch :: .learnCall batch :: m.learn batch m.gamma)

end MADDPG

/-! Concrete instances used by the witnesses. -/

/-- A trivial concrete agent whose action adds 10 to a numeric state. -/
def agentPlusTen : Agent Nat Nat Int :=
  ⟨fun s _ => s + 10⟩

/-- A trivial concrete agent whose action doubles a numeric state. -/
def agentDouble : Agent Nat Nat Int :=
  ⟨fun s _ => s * 2⟩

/-- A transition distinguished only by a numeric tag in its state. -/
def tagE (t : Nat) : Experience Nat Nat Int :=
  ⟨t, 0, 0, 0, false⟩

/-- A buffer of capacity 10 and batch size 1 holding one transition. -/
def bufW : ReplayBuffer Nat Nat Int :=
  ⟨1, 10, 1, [tagE 0]⟩

/-- A buffer with batch size 2 holding three transitions. -/
def bufW4 : ReplayBuffer Nat Nat Int :=
  ⟨1, 10, 2, [tagE 1, tagE 2, tagE 3]⟩

/-- A buffer with batch size 4 holding a single transition. -/
def bufSmall : ReplayBuffer Nat Nat Int :=
  ⟨1, 10, 4, [tagE 1]⟩

/-- A buffer at capacity: three transitions stored, capacity 3. -/
def bufFull : ReplayBuffer Nat Nat Int :=
  ⟨1, 3, 2, [tagE 1, tagE 2, tagE 3]⟩

/-- A two-agent coordinator with warm-up threshold 2, whose shared buffer
(batch size 1) already holds one transition. -/
def mW : MADDPG Nat Nat Int :=
  ⟨2, 1, (99 : ℚ) / 100, 2, [agentPlusTen, agentDouble], bufW⟩

/-- The transitions the witness `step` call stores. -/
def tsW : List (Experience Nat Nat Int) :=
  [⟨1, 3, 5, 7, false⟩, ⟨2, 4, 6, 8, true⟩]

/-! Helper lemmas about the random draw. -/

theorem drawDistinct_spec (k : Nat) :
    ∀ (g : PyRandom) (remaining : List Nat), remaining.Nodup →
      k ≤ remaining.length →
      (drawDistinct g k remaining).1.length = k ∧
      (drawDistinct g k remaining).1.Nodup ∧
      ∀ i ∈ (drawDistinct g k remaining).1, i ∈ remaining := by
  induction k with
  | zero => intro g remaining _ _; simp [drawDistinct]
  | succ k ih =>
    intro g remaining hnd hk
    have hpos : 0 < remaining.length := by omega
    have hne : remaining.isEmpty = false := by
      cases remaining
      · simp at hpos
      · rfl
    rw [drawDistinct, hne]
    simp only [Bool.false_eq_true, if_false]
    have hi : g.next.1 % remaining.length < remaining.length :=
      Nat.mod_lt _ hpos
    have hget : remaining.getD (g.next.1 % remaining.length) 0 =
        remaining[g.next.1 % remaining.length] := by
      rw [List.getD_eq_getElem?_getD, List.getElem?_eq_getElem hi,
        Option.getD_some]
    have hsub : List.Sublist (remaining.eraseIdx (g.next.1 % remaining.length))
        remaining := List.eraseIdx_sublist ..
    have hnd' : (remaining.eraseIdx (g.next.1 % remaining.length)).Nodup :=
      hnd.sublist hsub
    have hlen' : k ≤ (remaining.eraseIdx (g.next.1 % remaining.length)).length := by
      rw [List.length_eraseIdx_of_lt hi]; omega
    obtain ⟨ihlen, ihnd, ihmem⟩ :=
      ih g.next.2 (remaining.eraseIdx (g.next.1 % remaining.length)) hnd' hlen'
    refine ⟨by simpa using ihlen, ?_, ?_⟩
    · rw [hget, List.nodup_cons]
      refine ⟨fun hmem => ?_, ihnd⟩
      have hmem' := ihmem _ hmem
      rw [← hnd.erase_getElem _ hi] at hmem'
      exact hnd.not_mem_erase hmem'
    · intro i hmemi
      rcases List.mem_cons.mp hmemi with h0 | h0
      · rw [h0, hget]; exact List.getElem_mem hi
      · exact hsub.subset (ihmem _ h0)

theorem filterMap_getElem_eq_pmap {α : Type u} (l : List α) :
    ∀ (idxs : List Nat) (h : ∀ i ∈ idxs, i < l.length),
      idxs.filterMap (fun i => l[i]?) =
        idxs.pmap (fun i hi => l.get ⟨i, hi⟩) h := by
  intro idxs
  induction idxs with
  | nil => intro h; rfl
  | cons a as iha =>
    intro h
    have ha : a < l.length := h a (List.mem_cons_self a as)
    rw [List.filterMap_cons, List.getElem?_eq_getElem ha, List.pmap,
      iha (fun i hi => h i (List.mem_cons_of_mem a hi))]
    rfl

/-! Helper lemmas about the deque, the buffer and the sampling loop. -/

theorem length_dequeAppend {α : Type u} (maxlen : Nat) (l : List α) (x : α) :
    (dequeAppend maxlen l x).length = min (l.length + 1) maxlen := by
  rw [dequeAppend]
  split <;>
    · rename_i h
      simp only [List.length_drop, List.length_append, List.length_cons,
        List.length_nil] at *
      omega

theorem dequeAppend_of_lt {α : Type u} {maxlen : Nat} {l : List α} (x : α)
    (h : l.length < maxlen) : dequeAppend maxlen l x = l ++ [x] := by
  have hc : ¬ maxlen < (l ++ [x]).length := by
    simp only [List.length_append, List.length_cons, List.length_nil]; omega
  rw [dequeAppend, if_neg hc]

theorem dequeAppend_at_cap {α : Type u} {maxlen : Nat} {l : List α} (x : α)
    (hl : l.length = maxlen) (hpos : 0 < maxlen) :
    dequeAppend maxlen l x = l.tail ++ [x] := by
  have h1 : maxlen < (l ++ [x]).length := by simp; omega
  have h2 : (l ++ [x]).length - maxlen = 1 := by simp; omega
  rw [dequeAppend, if_pos h1, h2, List.drop_append_of_le_length (by omega),
    List.drop_one]

namespace ReplayBuffer

theorem add_buffer_size (b : ReplayBuffer S A R) (e : Experience S A R) :
    (b.add e).buffer_size = b.buffer_size := rfl

theorem add_batch_size (b : ReplayBuffer S A R) (e : Experience S A R) :
    (b.add e).batch_size = b.batch_size := rfl

theorem length_add (b : ReplayBuffer S A R) (e : Experience S A R) :
    (b.add e).length = min (b.length + 1) b.buffer_size :=
  length_dequeAppend ..

theorem addAll_buffer_size (b : ReplayBuffer S A R)
    (es : List (Experience S A R)) : (b.addAll es).buffer_size = b.buffer_size := by
  induction es generalizing b with
  | nil => rfl
  | cons e es ih => exact ih (b.add e)

theorem addAll_batch_size (b : ReplayBuffer S A R)
    (es : List (Experience S A R)) : (b.addAll es).batch_size = b.batch_size := by
  induction es generalizing b with
  | nil => rfl
  | cons e es ih => exact ih (b.add e)

theorem length_addAll_le (b : ReplayBuffer S A R) (es : List (Experience S A R))
    (h : b.length ≤ b.buffer_size) : (b.addAll es).length ≤ b.buffer_size := by
  induction es generalizing b with
  | nil => exact h
  | cons e es ih =>
    have h1 : (b.add e).length ≤ (b.add e).buffer_size := by
      rw [length_add, add_buffer_size]; omega
    have := ih (b.add e) h1
    rwa [add_buffer_size] at this

theorem addAll_replay_memory_of_le (b : ReplayBuffer S A R)
    (es : List (Experience S A R)) (h : b.length + es.length ≤ b.buffer_size) :
    (b.addAll es).replay_memory = b.replay_memory ++ es := by
  induction es generalizing b with
  | nil => simp [addAll]
  | cons e es ih =>
    have hlt : b.replay_memory.length < b.buffer_size := by
      simp only [List.length_cons, length] at h ⊢; omega
    have hadd : (b.add e).replay_memory = b.replay_memory ++ [e] :=
      dequeAppend_of_lt e hlt
    have hlen : (b.add e).length + es.length ≤ (b.add e).buffer_size := by
      rw [length_add, add_buffer_size]
      simp only [List.length_cons, length] at h ⊢; omega
    have := ih (b.add e) hlen
    rw [addAll, List.foldl_cons, ← addAll, this, hadd, List.append_assoc,
      List.singleton_append]

theorem sample_some (b : ReplayBuffer S A R) (g : PyRandom)
    (h : b.batch_size ≤ b.length) :
    ∃ batch g', b.sample g = some (batch, b, g') := by
  simp only [length] at h
  rw [sample, sampleExperiences, if_pos h]
  exact ⟨_, _, rfl⟩

end ReplayBuffer

/-! Helper lemmas about the coordinator. -/

namespace MADDPG

theorem collectT_some_spec (states : List S) (actions : List A)
    (rewards : List R) (next_states : List S) (dones : List Bool) :
    ∀ (k start : Nat) (ts : List (Experience S A R)),
      collectT states actions rewards next_states dones start k = some ts →
      ts.length = k ∧
      ∀ j, j < k → ts[j]? = mkExperience? states actions rewards next_states dones (start + j) := by
  intro k
  induction k with
  | zero =>
    intro start ts h
    simp only [collectT, Option.some.injEq] at h
    subst h
    exact ⟨rfl, fun j hj => by omega⟩
  | succ k ih =>
    intro start ts h
    rw [collectT] at h
    rcases he : mkExperience? states actions rewards next_states dones start with _ | e <;>
      rw [he] at h
    · exact absurd h (by simp)
    rcases hc : collectT states actions rewards next_states dones (start + 1) k with _ | es <;>
      rw [hc] at h
    · exact absurd h (by simp)
    simp only [Option.some.injEq] at h
    subst h
    obtain ⟨hlen, hidx⟩ := ih (start + 1) es hc
    refine ⟨by simp [hlen], ?_⟩
    intro j hj
    cases j with
    | zero => simpa using he.symm
    | succ j =>
      have := hidx j (by omega)
      rw [List.getElem?_cons_succ, this]
      congr 1
      omega

theorem trainIters_spec (m : MADDPG S A R) (b : ReplayBuffer S A R)
    (hbs : b.batch_size ≤ b.length) :
    ∀ (n : Nat) (g : PyRandom), ∃ g' batches,
      m.trainIters n b g = some (b, g', m.trainEvents batches) ∧
      batches.length = n := by
  intro n
  induction n with
  | zero => exact fun g => ⟨g, [], rfl, rfl⟩
  | succ n ih =>
    intro g
    obtain ⟨batch, g1, hs⟩ := ReplayBuffer.sample_some b g hbs
    obtain ⟨g', batches, hrec, hlen⟩ := ih g1
    refine ⟨g', batch :: batches, ?_, by simp [hlen]⟩
    rw [trainIters]
    simp only [hs, hrec]
    simp [trainEvents]

theorem learn_filter_learnCall (m : MADDPG S A R) (batch : Batch S A R)
    (gamma : ℚ) : (m.learn batch gamma).filter Event.isLearnCall = [] := by
  rw [learn, List.filter_map]
  have : (Event.isLearnCall ∘ fun i => Event.agentLearn (S := S) (A := A) (R := R) i batch gamma) =
      fun _ => false := by
    funext i; rfl
  rw [this, List.filter_false, List.map_nil]

theorem length_learn (m : MADDPG S A R) (batch : Batch S A R) (gamma : ℚ) :
    (m.learn batch gamma).length = m.agents.length := by
  rw [learn, List.length_map, List.length_range]

theorem trainEvents_filter_learnCall (m : MADDPG S A R)
    (batches : List (Batch S A R)) :
    ((m.trainEvents batches).filter Event.isLearnCall).length = batches.length := by
  induction batches with
  | nil => rfl
  | cons batch batches ih =>
    rw [trainEvents, List.flatMap_cons, ← trainEvents, List.filter_append,
      List.length_append, ih]
    rw [List.filter_cons_of_neg (by simp [Event.isLearnCall]),
      List.filter_cons_of_pos (by simp [Event.isLearnCall]),
      learn_filter_learnCall]
    simp [Nat.add_comm]

theorem step_warmup (m : MADDPG S A R) (states : List S) (actions : List A)
    (rewards : List R) (next_states : List S) (dones : List Bool)
    (g : PyRandom) (ts : List (Experience S A R))
    (hts : m.stepTransitions states actions rewards next_states dones = some ts)
    (hle : (m.memory.addAll ts).length ≤ m.minsamples_before_train) :
    m.step states actions rewards next_states dones g =
      some ({ m with memory := m.memory.addAll ts }, g, []) := by
  rw [step, hts]
  simp only [Nat.not_lt.mpr hle, if_false]

theorem step_train (m : MADDPG S A R) (states : List S) (actions : List A)
    (rewards : List R) (next_states : List S) (dones : List Bool)
    (g : PyRandom) (ts : List (Experience S A R))
    (hts : m.stepTransitions states actions rewards next_states dones = some ts)
    (hbs : m.memory.batch_size ≤ m.minsamples_before_train)
    (hgt : m.minsamples_before_train < (m.memory.addAll ts).length) :
    ∃ g' batches,
      m.step states actions rewards next_states dones g =
        some ({ m with memory := m.memory.addAll ts }, g',
          m.trainEvents batches) ∧
      batches.length = m.num_agents := by
  have hbs' : (m.memory.addAll ts).batch_size ≤ (m.memory.addAll ts).length := by
    rw [ReplayBuffer.addAll_batch_size]
    omega
  obtain ⟨g', batches, htr, hlen⟩ :=
    trainIters_spec m (m.memory.addAll ts) hbs' m.num_agents g
  refine ⟨g', batches, ?_, hlen⟩
  rw [step, hts]
  simp only [hgt, if_true, htr]

theorem act_getElem (m : MADDPG S A R) (states : List S) (add_noise : Bool)
    (i : Nat) (s : S) (ag : Agent S A R) (hs : states[i]? = some s)
    (ha : m.agents[i]? = some ag) :
    (m.act states add_noise)[i]? = some (ag.actFn s add_noise) := by
  have hz : (states.zip m.agents)[i]? = some (s, ag) :=
    List.getElem?_zip_eq_some.mpr ⟨hs, ha⟩
  rw [act, List.getElem?_map, hz]
  rfl

theorem length_act (m : MADDPG S A R) (states : List S) (add_noise : Bool) :
    (m.act states add_noise).length = min states.length m.agents.length := by
  rw [act, List.length_map, List.length_zip]

end MADDPG

/-! The claims. -/

/-- C1: for every `step` call (on any reachable coordinator state, with
per-agent input sequences long enough for the indexed stores to succeed),
if the buffer holds at most `minsamples_before_train` samples after the
stores then no learning event is emitted and no error is raised — the step
only records the transitions; and every `step` call after which the stored
count strictly exceeds the threshold performs exactly `num_agents` learning
iterations (under the spec's configuration requirement
`batch_size ≤ minsamples_before_train`). -/
theorem claim_C1_warmup_gating (m : MADDPG S A R) (states : List S)
    (actions : List A) (rewards : List R) (next_states : List S)
    (dones : List Bool) (g : PyRandom) (ts : List (Experience S A R))
    (hts : m.stepTransitions states actions rewards next_states dones = some ts) :
    ((m.memory.addAll ts).length ≤ m.minsamples_before_train →
      m.step states actions rewards next_states dones g =
        some ({ m with memory := m.memory.addAll ts }, g, [])) ∧
    (m.memory.batch_size ≤ m.minsamples_before_train →
      m.minsamples_before_train < (m.memory.addAll ts).length →
      ∃ g' evs,
        m.step states actions rewards next_states dones g =
          some ({ m with memory := m.memory.addAll ts }, g', evs) ∧
        (evs.filter Event.isLearnCall).length = m.num_agents) := by
  constructor
  · intro hle
    exact MADDPG.step_warmup m states actions rewards next_states dones g ts hts hle
  · intro hbs hgt
    obtain ⟨g', batches, hstep, hlen⟩ :=
      MADDPG.step_train m states actions rewards next_states dones g ts hts hbs hgt
    exact ⟨g', m.trainEvents batches, hstep, by
      rw [MADDPG.trainEvents_filter_learnCall, hlen]⟩

/-- C1 witness: a two-agent coordinator with threshold 2 and one stored
sample; the step stores two more transitions, crosses the threshold and
performs exactly two learning iterations. -/
theorem claim_C1_witness :
    ∃ g' evs,
      mW.step [1, 2] [3, 4] [5, 6] [7, 8] [false, true] ⟨0⟩ =
        some ({ mW with memory := mW.memory.addAll tsW }, g', evs) ∧
      (evs.filter Event.isLearnCall).length = 2 :=
  (claim_C1_warmup_gating mW [1, 2] [3, 4] [5, 6] [7, 8] [false, true] ⟨0⟩ tsW
    rfl).2 (by decide) (by decide)

/-- C2: each qualifying `step` call on a coordinator with `num_agents = k`
agents emits the trace of exactly `k` sample draws and `k` coordinator
`learn` invocations, the `i`-th `learn` receiving the `i`-th drawn batch,
and inside each `learn` invocation all `k` agents' `learn` methods are
called with that same single batch. -/
theorem claim_C2_per_step_learning (m : MADDPG S A R) (states : List S)
    (actions : List A) (rewards : List R) (next_states : List S)
    (dones : List Bool) (g : PyRandom) (ts : List (Experience S A R))
    (hag : m.agents.length = m.num_agents)
    (hts : m.stepTransitions states actions rewards next_states dones = some ts)
    (hbs : m.memory.batch_size ≤ m.minsamples_before_train)
    (hgt : m.minsamples_before_train < (m.memory.addAll ts).length) :
    ∃ (g' : PyRandom) (batches : List (Batch S A R)),
      batches.length = m.num_agents ∧
      m.step states actions rewards next_states dones g =
        some ({ m with memory := m.memory.addAll ts }, g',
          batches.flatMap (fun batch =>
            Event.sampleCall batch :: Event.learnCall batch ::
              (List.range m.num_agents).map
                (fun i => Event.agentLearn i batch m.gamma))) := by
  obtain ⟨g', batches, hstep, hlen⟩ :=
    MADDPG.step_train m states actions rewards next_states dones g ts hts hbs hgt
  refine ⟨g', batches, hlen, ?_⟩
  rw [hstep]
  have hlearn : ∀ batch : Batch S A R, m.learn batch m.gamma =
      (List.range m.num_agents).map
        (fun i => Event.agentLearn i batch m.gamma) := by
    intro batch
    rw [MADDPG.learn, hag]
  simp only [MADDPG.trainEvents, hlearn]

/-- C2 witness: the two-agent coordinator performs two draws; the trace is
two blocks, each a sample draw followed by one `learn` invocation handing
the drawn batch to both agents. -/
theorem claim_C2_witness :
    ∃ (g' : PyRandom) (batches : List (Batch Nat Nat Int)),
      batches.length = 2 ∧
      mW.step [1, 2] [3, 4] [5, 6] [7, 8] [false, true] ⟨0⟩ =
        some ({ mW with memory := mW.memory.addAll tsW }, g',
          batches.flatMap (fun batch =>
            Event.sampleCall batch :: Event.learnCall batch ::
              (List.range 2).map
                (fun i => Event.agentLearn i batch mW.gamma))) :=
  claim_C2_per_step_learning mW [1, 2] [3, 4] [5, 6] [7, 8] [false, true]
    ⟨0⟩ tsW rfl rfl (by decide) (by decide)

/-- C6: a `step` call with per-agent sequences of sufficient length appends
exactly `num_agents` transitions to the single shared buffer, in ascending
agent order, the `i`-th appended transition being
`(states[i], actions[i], rewards[i], next_states[i], dones[i])`. -/
theorem claim_C6_step_stores (m : MADDPG S A R) (states : List S)
    (actions : List A) (rewards : List R) (next_states : List S)
    (dones : List Bool) (g : PyRandom) (ts : List (Experience S A R))
    (hts : m.stepTransitions states actions rewards next_states dones = some ts)
    (hcap : m.memory.length + m.num_agents ≤ m.memory.buffer_size)
    (hbs : m.memory.batch_size ≤ m.minsamples_before_train) :
    ts.length = m.num_agents ∧
    (∀ j, j < m.num_agents →
      ts[j]? = MADDPG.mkExperience? states actions rewards next_states dones j) ∧
    ∃ m' g' evs,
      m.step states actions rewards next_states dones g = some (m', g', evs) ∧
      m'.memory.replay_memory = m.memory.replay_memory ++ ts := by
  obtain ⟨hlen, hidx⟩ := MADDPG.collectT_some_spec states actions rewards
    next_states dones m.num_agents 0 ts hts
  have hmem : (m.memory.addAll ts).replay_memory = m.memory.replay_memory ++ ts :=
    ReplayBuffer.addAll_replay_memory_of_le m.memory ts (by rw [hlen]; exact hcap)
  refine ⟨hlen, fun j hj => by simpa using hidx j hj, ?_⟩
  by_cases hgt : m.minsamples_before_train < (m.memory.addAll ts).length
  · obtain ⟨g', batches, hstep, _⟩ :=
      MADDPG.step_train m states actions rewards next_states dones g ts hts hbs hgt
    exact ⟨_, g', m.trainEvents batches, hstep, hmem⟩
  · have hle : (m.memory.addAll ts).length ≤ m.minsamples_before_train := by omega
    exact ⟨_, g, [],
      MADDPG.step_warmup m states actions rewards next_states dones g ts hts hle, hmem⟩

/-- C6 witness: the witness step stores exactly the two transitions built
from index 0 and 1 of the five input sequences, appended in order. -/
theorem claim_C6_witness :
    tsW.length = 2 ∧
    (∀ j, j < 2 →
      tsW[j]? = MADDPG.mkExperience? [1, 2] [3, 4] [5, 6] [7, 8] [false, true] j) ∧
    ∃ m' g' evs,
      mW.step [1, 2] [3, 4] [5, 6] [7, 8] [false, true] ⟨0⟩ = some (m', g', evs) ∧
      m'.memory.replay_memory = mW.memory.replay_memory ++ tsW :=
  claim_C6_step_stores mW [1, 2] [3, 4] [5, 6] [7, 8] [false, true] ⟨0⟩ tsW
    rfl (by decide) (by decide)

/-- C3: the buffer length never exceeds `buffer_size` for any sequence of
`add` calls after construction; an `add` at capacity evicts exactly the
oldest stored transition; and concretely, a capacity-5 buffer given the
transitions tagged 1..7 ends up holding exactly the tags 3,4,5,6,7 in
order. -/
theorem claim_C3_capacity_fifo :
    (∀ {S : Type u} {A : Type v} {R : Type w}
      (action_size buffer_size batch_size seed : Nat) (g : PyRandom)
      (es : List (Experience S A R)),
      ((ReplayBuffer.init action_size buffer_size batch_size seed g).1.addAll
        es).length ≤ buffer_size) ∧
    (∀ {S : Type u} {A : Type v} {R : Type w} (b : ReplayBuffer S A R)
      (e : Experience S A R), b.length = b.buffer_size → 0 < b.buffer_size →
      (b.add e).replay_memory = b.replay_memory.tail ++ [e]) ∧
    ((ReplayBuffer.init (S := Nat) (A := Nat) (R := Int) 1 5 2 0 ⟨0⟩).1.addAll
        ((List.range 7).map (fun t => tagE (t + 1)))).replay_memory =
      [tagE 3, tagE 4, tagE 5, tagE 6, tagE 7] := by
  refine ⟨?_, ?_, by decide⟩
  · intro S A R action_size buffer_size batch_size seed g es
    exact ReplayBuffer.length_addAll_le _ es (by simp [ReplayBuffer.init,
      ReplayBuffer.length])
  · intro S A R b e hfull hpos
    exact dequeAppend_at_cap e hfull (hfull ▸ hpos)

/-- C3 witness: a capacity-3 buffer at capacity evicts its oldest
transition on the next `add`. -/
theorem claim_C3_witness :
    (bufFull.add (tagE 9)).replay_memory = bufFull.replay_memory.tail ++ [tagE 9] :=
  claim_C3_capacity_fifo.2.1 bufFull (tagE 9) (by decide) (by decide)

/-- C5: `sample()` raises (returns `none`) exactly when fewer than
`batch_size` transitions are stored, and succeeds whenever at least
`batch_size` are stored. -/
theorem claim_C5_sample_precondition (b : ReplayBuffer S A R) (g : PyRandom) :
    (b.length < b.batch_size → b.sample g = none) ∧
    (b.batch_size ≤ b.length → (b.sample g).isSome) := by
  constructor
  · intro h
    have hc : ¬ b.batch_size ≤ b.replay_memory.length := by
      simp only [ReplayBuffer.length] at h; omega
    rw [ReplayBuffer.sample, ReplayBuffer.sampleExperiences, if_neg hc]
  · intro h
    obtain ⟨batch, g', hs⟩ := ReplayBuffer.sample_some b g h
    rw [hs]
    rfl

/-- C5 witness: a buffer holding one transition with batch size 4 fails to
sample; a buffer holding three transitions with batch size 2 samples
successfully. -/
theorem claim_C5_witness :
    bufSmall.sample ⟨0⟩ = none ∧ (bufW4.sample ⟨0⟩).isSome :=
  ⟨(claim_C5_sample_precondition bufSmall ⟨0⟩).1 (by decide),
    (claim_C5_sample_precondition bufW4 ⟨0⟩).2 (by decide)⟩

/-- C9: sampling is read-only — when it succeeds, the buffer returned by
`sample` is exactly the buffer it was called on: same stored transitions,
same order, same length and parameters. -/
theorem claim_C9_sample_frame (b : ReplayBuffer S A R) (g : PyRandom)
    (h : b.batch_size ≤ b.length) :
    ∃ batch g', b.sample g = some (batch, b, g') :=
  ReplayBuffer.sample_some b g h

/-- C9 witness: sampling the three-transition buffer leaves it unchanged. -/
theorem claim_C9_witness :
    ∃ batch g', bufW4.sample ⟨0⟩ = some (batch, bufW4, g') :=
  claim_C9_sample_frame bufW4 ⟨0⟩ (by decide)

/-- C4: when at least `batch_size` transitions are stored, `sample()`
succeeds and returns five parallel columns, each of length exactly
`batch_size`, whose entries are the fields of transitions at pairwise
distinct positions of the current buffer contents — no stored transition
appears twice within one batch. -/
theorem claim_C4_sample_batch (b : ReplayBuffer S A R) (g : PyRandom)
    (h : b.batch_size ≤ b.length) :
    ∃ batch b' g', b.sample g = some (batch, b', g') ∧
      batch.states.length = b.batch_size ∧
      batch.actions.length = b.batch_size ∧
      batch.rewards.length = b.batch_size ∧
      batch.next_states.length = b.batch_size ∧
      batch.dones.length = b.batch_size ∧
      ∃ idxs : List (Fin b.replay_memory.length),
        idxs.Nodup ∧ idxs.length = b.batch_size ∧
        batch.states = idxs.map (fun i => (b.replay_memory.get i).state) ∧
        batch.actions = idxs.map (fun i => (b.replay_memory.get i).action) ∧
        batch.rewards = idxs.map (fun i => (b.replay_memory.get i).reward) ∧
        batch.next_states = idxs.map (fun i => (b.replay_memory.get i).next_state) ∧
        batch.dones = idxs.map (fun i =>
          if (b.replay_memory.get i).done then 1 else 0) := by
  simp only [ReplayBuffer.length] at h
  obtain ⟨hdlen, hdnd, hdmem⟩ := drawDistinct_spec b.batch_size g
    (List.range b.replay_memory.length) (List.nodup_range _) (by simpa using h)
  have hvalid : ∀ i ∈ (b.sampleIdx g).1, i < b.replay_memory.length := by
    intro i hi
    exact List.mem_range.mp (hdmem i hi)
  have hexp : (b.sampleIdx g).1.filterMap (fun i => b.replay_memory[i]?) =
      (b.sampleIdx g).1.pmap (fun i hi => b.replay_memory.get ⟨i, hi⟩) hvalid :=
    filterMap_getElem_eq_pmap b.replay_memory (b.sampleIdx g).1 hvalid
  have hslen : (b.sampleIdx g).1.length = b.batch_size := hdlen
  have hsnd : (b.sampleIdx g).1.Nodup := hdnd
  have hsample : b.sample g = some
      (⟨((b.sampleIdx g).1.filterMap (fun i => b.replay_memory[i]?)).map (·.state),
        ((b.sampleIdx g).1.filterMap (fun i => b.replay_memory[i]?)).map (·.action),
        ((b.sampleIdx g).1.filterMap (fun i => b.replay_memory[i]?)).map (·.reward),
        ((b.sampleIdx g).1.filterMap (fun i => b.replay_memory[i]?)).map (·.next_state),
        ((b.sampleIdx g).1.filterMap (fun i => b.replay_memory[i]?)).map
          (fun e => if e.done then 1 else 0)⟩, b, (b.sampleIdx g).2) := by
    rw [ReplayBuffer.sample, ReplayBuffer.sampleExperiences, if_pos h]
  refine ⟨_, b, (b.sampleIdx g).2, hsample, ?_, ?_, ?_, ?_, ?_, ?_⟩
  · simp only [List.length_map, hexp, List.length_pmap, hslen]
  · simp only [List.length_map, hexp, List.length_pmap, hslen]
  · simp only [List.length_map, hexp, List.length_pmap, hslen]
  · simp only [List.length_map, hexp, List.length_pmap, hslen]
  · simp only [List.length_map, hexp, List.length_pmap, hslen]
  refine ⟨(b.sampleIdx g).1.pmap
      (fun i hi => (⟨i, hi⟩ : Fin b.replay_memory.length)) hvalid,
    hsnd.pmap (fun a _ c _ hac => by simpa using congrArg Fin.val hac),
    ?_, ?_, ?_, ?_, ?_, ?_⟩
  · rw [List.length_pmap]
    exact hslen
  all_goals
    simp only [hexp, List.map_pmap]

/-- C4 witness: sampling two of three stored transitions yields columns of
length two drawn from distinct stored positions. -/
theorem claim_C4_witness :
    ∃ batch b' g', bufW4.sample ⟨0⟩ = some (batch, b', g') ∧
      batch.states.length = bufW4.batch_size ∧
      batch.actions.length = bufW4.batch_size ∧
      batch.rewards.length = bufW4.batch_size ∧
      batch.next_states.length = bufW4.batch_size ∧
      batch.dones.length = bufW4.batch_size ∧
      ∃ idxs : List (Fin bufW4.replay_memory.length),
        idxs.Nodup ∧ idxs.length = bufW4.batch_size ∧
        batch.states = idxs.map (fun i => (bufW4.replay_memory.get i).state) ∧
        batch.actions = idxs.map (fun i => (bufW4.replay_memory.get i).action) ∧
        batch.rewards = idxs.map (fun i => (bufW4.replay_memory.get i).reward) ∧
        batch.next_states = idxs.map (fun i => (bufW4.replay_memory.get i).next_state) ∧
        batch.dones = idxs.map (fun i =>
          if (bufW4.replay_memory.get i).done then 1 else 0) :=
  claim_C4_sample_batch bufW4 ⟨0⟩ (by decide)

/-- C7: for a states sequence of length exactly `num_agents`, `act` returns
exactly `num_agents` actions, the `i`-th being the `i`-th agent's `act`
applied to the `i`-th state — index-aligned with both the input list and
the coordinator's agent list. -/
theorem claim_C7_act_aligned (m : MADDPG S A R) (states : List S)
    (add_noise : Bool) (h1 : states.length = m.num_agents)
    (h2 : m.agents.length = m.num_agents) :
    (m.act states add_noise).length = m.num_agents ∧
    ∀ (i : Nat) (s : S) (ag : Agent S A R),
      states[i]? = some s → m.agents[i]? = some ag →
      (m.act states add_noise)[i]? = some (ag.actFn s add_noise) := by
  refine ⟨?_, fun i s ag hs ha => MADDPG.act_getElem m states add_noise i s ag hs ha⟩
  rw [MADDPG.length_act, h1, h2, Nat.min_self]

/-- C7 witness: two distinct agents on two states; the second output is
the second agent's action on the second state. -/
theorem claim_C7_witness :
    (mW.act [3, 4] true).length = 2 ∧ (mW.act [3, 4] true)[1]? = some 8 := by
  have h := claim_C7_act_aligned mW [3, 4] true rfl rfl
  exact ⟨h.1, h.2 1 4 agentDouble rfl rfl⟩

/-- C10: calling `act` with a states sequence shorter than `num_agents`
raises no error: it returns exactly one action per provided state (the
zip silently drops the trailing agents), each still index-aligned. -/
theorem claim_C10_act_short (m : MADDPG S A R) (states : List S)
    (add_noise : Bool) (h1 : states.length < m.num_agents)
    (h2 : m.agents.length = m.num_agents) :
    (m.act states add_noise).length = states.length ∧
    ∀ (i : Nat) (s : S) (ag : Agent S A R),
      states[i]? = some s → m.agents[i]? = some ag →
      (m.act states add_noise)[i]? = some (ag.actFn s add_noise) := by
  refine ⟨?_, fun i s ag hs ha => MADDPG.act_getElem m states add_noise i s ag hs ha⟩
  rw [MADDPG.length_act, h2]
  omega

/-- C10 witness: one state given to the two-agent coordinator yields
exactly one action, the first agent's. -/
theorem claim_C10_witness :
    (mW.act [7] true).length = 1 ∧ (mW.act [7] true)[0]? = some 17 := by
  have h := claim_C10_act_short mW [7] true (by decide) rfl
  exact ⟨h.1, h.2 0 7 agentPlusTen rfl rfl⟩

/-- C8 counterexample: two buffers constructed with the same seed and given
the same `add` calls do NOT always produce the same `sample()` results —
constructing another buffer in between reseeds the hidden shared global
generator that `sample` consumes, changing the first buffer's draw.  The
two buffers here are equal (same seed 42, same two adds), yet their sample
results differ because run 2 constructs an unrelated buffer (seed 7) before
sampling. -/
theorem claim_C8_counterexample :
    ((ReplayBuffer.init (S := Nat) (A := Nat) (R := Int) 1 10 1 42 ⟨123⟩).1.add
        (tagE 1)).add (tagE 2) =
      ((ReplayBuffer.init (S := Nat) (A := Nat) (R := Int) 1 10 1 42 ⟨123⟩).1.add
        (tagE 1)).add (tagE 2) ∧
    (((ReplayBuffer.init (S := Nat) (A := Nat) (R := Int) 1 10 1 42 ⟨123⟩).1.add
        (tagE 1)).add (tagE 2)).sample
      (ReplayBuffer.init (S := Nat) (A := Nat) (R := Int) 1 10 1 42 ⟨123⟩).2 ≠
    (((ReplayBuffer.init (S := Nat) (A := Nat) (R := Int) 1 10 1 42 ⟨123⟩).1.add
        (tagE 1)).add (tagE 2)).sample
      (ReplayBuffer.init (S := Nat) (A := Nat) (R := Int) 1 10 1 7
        (ReplayBuffer.init (S := Nat) (A := Nat) (R := Int) 1 10 1 42 ⟨123⟩).2).2 := by
  exact ⟨rfl, by decide⟩

/-- C8 amended: the buffer's sampling randomness is the hidden module-global
generator, reseeded at construction; reproducibility therefore holds across
whole runs — a run that constructs the buffer (any prior global state),
performs the same `add` calls and then samples repeatedly produces results
independent of the global state that preceded construction — but not under
interleaved use of the global generator by other constructions. -/
theorem claim_C8_amended (g0 g1 : PyRandom)
    (action_size buffer_size batch_size seed : Nat)
    (es : List (Experience S A R)) (n : Nat) :
    ReplayBuffer.sampleRun n
      ((ReplayBuffer.init (S := S) (A := A) (R := R) action_size buffer_size
        batch_size seed g0).1.addAll es)
      (ReplayBuffer.init (S := S) (A := A) (R := R) action_size buffer_size
        batch_size seed g0).2 =
    ReplayBuffer.sampleRun n
      ((ReplayBuffer.init (S := S) (A := A) (R := R) action_size buffer_size
        batch_size seed g1).1.addAll es)
      (ReplayBuffer.init (S := S) (A := A) (R := R) action_size buffer_size
        batch_size seed g1).2 := rfl
